import Mathlib

/-!
Verification of the Presentation Clicker session layer.

This file shallowly embeds the parts of the repository that the spec's
claims are about:

* `encryption.get_fernet` and the Fernet cipher it returns (modelled
  symbolically: the `cryptography` library's Fernet is an authenticated
  symmetric cipher, so a token is characterised by the key it was made
  with and the plaintext, and decryption fails closed on a key mismatch;
  PBKDF2 key derivation is a deterministic injective function of the
  password),
* `mqtt_base.BaseMqttHandler` (disconnect / `_on_disconnect` / the
  reconnect-loop guard / `publish_encrypted` / `_on_message`),
* the two client variants' `connect` (last-will registration),
  `disconnect` and `publish_status`
  (`presentation_clicker/client/mqtt_client.py` and the legacy
  `presentation_clicker_client/presentation_clicker_client/mqtt_client.py`),
* the two server UI variants' `_handle_message` permission ledger and
  command router
  (`presentation_clicker_listener/presentation_clicker_listener/ui_server.py`,
  called the *nested* variant below, and
  `presentation_clicker_listener/ui_server.py`, the *top-level* variant).

Python dicts are embedded as association lists with first-match lookup,
in-place overwrite and key deletion.  `data.get("user")` may yield `None`,
so ledger keys and message fields are `Option String`.
-/

namespace PClicker

/-- Symbolic model of a `cryptography.fernet.Fernet` object as returned by
`encryption.get_fernet`: PBKDF2-HMAC-SHA256 with a fixed salt and fixed
iteration count is a deterministic function of the password, so the object
is characterised by the password it was derived from. -/
structure Fernet where
  password : String
deriving DecidableEq, Repr

/-- `encryption.get_fernet`: derives the Fernet key from the room password
(PBKDF2HMAC, SHA-256, fixed salt `presentationclicker_salt`, 100000
iterations, 32-byte key). -/
def get_fernet (pwd : String) : Fernet := ⟨pwd⟩

/-- Symbolic model of a Fernet ciphertext token: an authenticated token is
characterised by the key that produced it and the plaintext it protects. -/
structure Token where
  madeWith : Fernet
  plain : String
deriving DecidableEq, Repr

/-- `Fernet.encrypt`: producing an authenticated token under a key. -/
def Fernet.encrypt (f : Fernet) (m : String) : Token := ⟨f, m⟩

/-- `Fernet.decrypt`: authenticated decryption — returns the plaintext when
the token was produced under the same key and fails closed (`none`,
`InvalidToken` in the library) otherwise. -/
def Fernet.decrypt (f : Fernet) (t : Token) : Option String :=
  if t.madeWith = f then some t.plain else none

/-- `topics.get_base_topic`: `f"presentationclicker/{room}"`. -/
def get_base_topic (room : String) : String := "presentationclicker/" ++ room

/-- The JSON message bodies the system serialises with `json.dumps`:
`{"user": ..., "status": ...}` and `{"user": ..., "action": ...}`. -/
inductive Payload
  | statusMsg (user : String) (status : String)
  | actionMsg (user : String) (action : String)
deriving DecidableEq, Repr

/-- `json.dumps` on the two dict shapes the system publishes. -/
def jsonDumps : Payload → String
  | .statusMsg u s => "\x7b\"user\": \"" ++ u ++ "\", \"status\": \"" ++ s ++ "\"\x7d"
  | .actionMsg u a => "\x7b\"user\": \"" ++ u ++ "\", \"action\": \"" ++ a ++ "\"\x7d"

/-- One `client.publish(topic, encrypted, qos=..., retain=...)` call. -/
structure PublishCall where
  topic : String
  body : Token
  qos : Nat
  retain : Bool
deriving DecidableEq, Repr

/-- `BaseMqttHandler.publish_encrypted`: serialise the dict payload with
`json.dumps`, encrypt with the session Fernet, publish. -/
def publish_encrypted (f : Fernet) (topic : String) (payload : Payload)
    (qos : Nat) (retain : Bool) : PublishCall :=
  { topic := topic, body := f.encrypt (jsonDumps payload), qos := qos, retain := retain }

/-- The fixed diagnostic placeholder `_on_message` substitutes for the
plaintext when decryption fails (`f"[Decryption failed: {e}]"`; we keep the
exception text abstract). -/
def decryptionDiagnostic : String := "[Decryption failed: InvalidToken]"

/-- `BaseMqttHandler._on_message`: the list of `on_message(topic, payload)`
callback invocations performed for one inbound broker message.  On
successful decryption the plaintext is handed up; on failure the
diagnostic placeholder is handed up instead; either way exactly one
invocation happens and no exception escapes the handler. -/
def on_message_calls (f : Fernet) (topic : String) (body : Token) :
    List (String × String) :=
  match f.decrypt body with
  | some s => [(topic, s)]
  | none => [(topic, decryptionDiagnostic)]

/-- One `self.user_rows[user]` permission entry: the two booleans the server
tracks per connected display name (the Tk tree item id is irrelevant to the
ledger semantics and omitted). -/
structure Entry where
  nav : Bool
  control : Bool
deriving DecidableEq, Repr

/-- Ledger keys: the value of `data.get("user")`, which is `None` when the
decoded JSON object has no `user` field. -/
abbrev UserKey := Option String

/-- `self.user_rows`, a Python dict, as an insertion-ordered association
list with first-match lookup. -/
abbrev UserRows := List (UserKey × Entry)

/-- Python `rows.get(u)` / `rows[u]`: first entry whose key equals `u`. -/
def dictGet : UserRows → UserKey → Option Entry
  | [], _ => none
  | (k, v) :: rest, u => if k = u then some v else dictGet rest u

/-- Python `u in rows`. -/
def dictContains (rows : UserRows) (u : UserKey) : Bool :=
  (dictGet rows u).isSome

/-- Python `rows[u] = v`: overwrite in place if present, append otherwise. -/
def dictInsert : UserRows → UserKey → Entry → UserRows
  | [], u, v => [(u, v)]
  | (k, w) :: rest, u, v =>
      if k = u then (k, v) :: rest else (k, w) :: dictInsert rest u v

/-- Python `del rows[u]`. -/
def dictErase : UserRows → UserKey → UserRows
  | [], _ => []
  | (k, w) :: rest, u =>
      if k = u then dictErase rest u else (k, w) :: dictErase rest u

/-- `perms.get("nav")` where `perms = self.user_rows.get(user, {})`: falsy
(`None`) when the user has no entry. -/
def permsNav : Option Entry → Bool
  | none => false
  | some e => e.nav

/-- `perms.get("control")` under the same convention. -/
def permsControl : Option Entry → Bool
  | none => false
  | some e => e.control

/-- The nested variant's `_update_user` (ui_server.py inside the
`presentation_clicker_listener` package): unconditionally writes the row,
overwriting `nav` and `control` when the user already exists. -/
def update_user_nested (rows : UserRows) (user : UserKey)
    (nav control : Bool) : UserRows :=
  dictInsert rows user ⟨nav, control⟩

/-- The top-level variant's `_update_user`
(`presentation_clicker_listener/ui_server.py`): returns immediately when
the user already exists, inserts with the given booleans otherwise. -/
def update_user_toplevel (rows : UserRows) (user : UserKey)
    (nav control : Bool) : UserRows :=
  if dictContains rows user then rows else dictInsert rows user ⟨nav, control⟩

/-- Status branch of the nested variant's `_handle_message`:
`online` → `_update_user(user, nav=True, control=False)`;
`offline` → delete the row if present; any other status (including
`connection_lost`) only logs and leaves the ledger unchanged. -/
def handle_status_nested (rows : UserRows) (user status : Option String) :
    UserRows :=
  if status = some "online" then
    update_user_nested rows user true false
  else if status = some "offline" then
    if dictContains rows user then dictErase rows user else rows
  else
    rows

/-- Status branch of the top-level variant's `_handle_message`:
`online` → `_update_user(user, nav=True, control=False)` (no-op when
present); `offline` and `connection_lost` → delete the row if present. -/
def handle_status_toplevel (rows : UserRows) (user status : Option String) :
    UserRows :=
  if status = some "online" then
    update_user_toplevel rows user true false
  else if status = some "offline" then
    if dictContains rows user then dictErase rows user else rows
  else if status = some "connection_lost" then
    if dictContains rows user then dictErase rows user else rows
  else
    rows

/-- What the presentation branch logs at the end. -/
inductive RouteLog
  | allowedExecuted (user action : Option String)
  | denied (user action : Option String)
deriving DecidableEq, Repr

/-- Result of routing one inbound action message: the final `allowed`
flag, the `keyboard.send(...)` calls fired (each one the key or key chord
passed to `keyboard.send`), and the log line. -/
structure RouteResult where
  allowed : Bool
  key_sends : List (List String)
  log : RouteLog
deriving DecidableEq, Repr

/-- Presentation branch of the nested variant's `_handle_message`
(the command router over the permission ledger):
`perms = self.user_rows.get(user, {})`; navigation actions fire iff
`perms.get("nav")` is truthy, control actions iff `perms.get("control")`
is truthy; exactly one `keyboard.send` fires inside an allow branch;
otherwise a denial is logged and nothing fires. -/
def handle_presentation (rows : UserRows) (user action : Option String) :
    RouteResult :=
  let perms := dictGet rows user
  if (action = some "next" ∨ action = some "previous") ∧ permsNav perms then
    { allowed := true
      key_sends :=
        if action = some "next" then [["right"]]
        else if action = some "previous" then [["left"]]
        else []
      log := .allowedExecuted user action }
  else if (action = some "start" ∨ action = some "end" ∨ action = some "blackout")
      ∧ permsControl perms then
    { allowed := true
      key_sends :=
        if action = some "start" then [["shift", "f5"]]
        else if action = some "end" then [["esc"]]
        else if action = some "blackout" then [["b"]]
        else []
      log := .allowedExecuted user action }
  else
    { allowed := false, key_sends := [], log := .denied user action }

/-- The key chord `keyboard.send` receives for each of the five recognised
actions in the nested variant. -/
def action_keys : Option String → List String
  | some "next" => ["right"]
  | some "previous" => ["left"]
  | some "start" => ["shift", "f5"]
  | some "end" => ["esc"]
  | some "blackout" => ["b"]
  | _ => []

/-- The shared mutable connection state of `BaseMqttHandler`:
`_should_reconnect`, `connected`, and whether `_reconnect_thread` is
currently alive. -/
structure MqttState where
  should_reconnect : Bool
  connected : Bool
  reconnect_thread_alive : Bool
deriving DecidableEq, Repr

/-- `BaseMqttHandler.disconnect`: sets `_should_reconnect = False`, then
`self.connected = False`, then tears down the transport with
`self.client.disconnect()` (a clean MQTT disconnect, `rc == 0`). -/
def base_disconnect (s : MqttState) : MqttState :=
  { s with should_reconnect := false, connected := false }

/-- What one invocation of `BaseMqttHandler._on_disconnect` does: the new
state together with whether a fresh reconnect thread was started. -/
structure DisconnectEvent where
  state : MqttState
  started_reconnect_thread : Bool
deriving DecidableEq, Repr

/-- `BaseMqttHandler._on_disconnect(client, userdata, rc)`: clears
`connected`, fires the UI callback, and starts a background reconnect
thread only when `_should_reconnect and rc != 0` and no reconnect thread
is already alive. -/
def on_disconnect (s : MqttState) (rc : Nat) : DisconnectEvent :=
  let s1 : MqttState := { s with connected := false }
  let starts := s1.should_reconnect && (rc != 0) && !s1.reconnect_thread_alive
  { state := { s1 with reconnect_thread_alive := s1.reconnect_thread_alive || starts }
    started_reconnect_thread := starts }

/-- The loop condition of `BaseMqttHandler._reconnect_loop`:
`while self._should_reconnect and not self.connected`.  When this is
`false` the loop body (the reconnect attempt) never runs. -/
def reconnect_loop_guard (s : MqttState) : Bool :=
  s.should_reconnect && !s.connected

/-- The last-will registration performed by `client.will_set(...)`. -/
structure WillConfig where
  topic : String
  body : Token
  qos : Nat
  retain : Bool
deriving DecidableEq, Repr

/-- The will registered by `PresentationMqttClient.connect` in
`presentation_clicker/client/mqtt_client.py`: topic `<base>/status`,
payload `fernet.encrypt(json.dumps({"user": user, "status":
"connection_lost"}))`, QoS 1, retained; registered before
`_connect_to_broker` initiates the connection. -/
def client_connect_will (user room pwd : String) : WillConfig :=
  let base := get_base_topic room
  let f := get_fernet pwd
  { topic := base ++ "/status"
    body := f.encrypt (jsonDumps (.statusMsg user "connection_lost"))
    qos := 1
    retain := true }

/-- The will registered by the legacy `PresentationMqttClient.connect` in
`presentation_clicker_client/presentation_clicker_client/mqtt_client.py`:
same topic, QoS and retain flag, but payload
`fernet.encrypt(json.dumps({"user": user, "status": "offline"}))`.
(The legacy `_get_fernet` is the same PBKDF2 derivation as
`encryption.get_fernet`.) -/
def legacy_client_connect_will (user room pwd : String) : WillConfig :=
  let base := get_base_topic room
  let f := get_fernet pwd
  { topic := base ++ "/status"
    body := f.encrypt (jsonDumps (.statusMsg user "offline"))
    qos := 1
    retain := true }

/-- `PresentationMqttClient.publish_status` (current client): publishes
`{"user": user, "status": status}` encrypted on `<base>/status` with
QoS 1, retained. -/
def publish_status (f : Fernet) (base user status : String) : PublishCall :=
  publish_encrypted f (base ++ "/status") (.statusMsg user status) 1 true

/-- The externally visible behaviour of one
`PresentationMqttClient.disconnect()` call (current client): the publishes
it performs, the grace sleep before teardown in milliseconds, and the
handler state after `super().disconnect()`. -/
structure ClientDisconnectTrace where
  published : List PublishCall
  sleep_ms : Nat
  final_state : MqttState
deriving DecidableEq, Repr

/-- `PresentationMqttClient.disconnect` in
`presentation_clicker/client/mqtt_client.py`: if `self.connected`,
publish the retained `offline` status and `time.sleep(0.5)`, then in
either case run `BaseMqttHandler.disconnect`. -/
def client_disconnect (f : Fernet) (base user : String) (s : MqttState) :
    ClientDisconnectTrace :=
  if s.connected then
    { published := [publish_status f base user "offline"]
      sleep_ms := 500
      final_state := base_disconnect s }
  else
    { published := []
      sleep_ms := 0
      final_state := base_disconnect s }

/-! ### Helper lemmas about the dict embedding -/

theorem dictGet_dictErase_self (rows : UserRows) (u : UserKey) :
    dictGet (dictErase rows u) u = none := by
  induction rows with
  | nil => rfl
  | cons p rest ih =>
    obtain ⟨k, w⟩ := p
    by_cases hk : k = u
    · simpa [dictErase, hk] using ih
    · simpa [dictErase, dictGet, hk] using ih

theorem dictGet_dictErase_other (rows : UserRows) (u v : UserKey)
    (h : v ≠ u) : dictGet (dictErase rows u) v = dictGet rows v := by
  induction rows with
  | nil => rfl
  | cons p rest ih =>
    obtain ⟨k, w⟩ := p
    by_cases hk : k = u
    · simp [dictErase, dictGet, hk, Ne.symm h, ih]
    · by_cases hkv : k = v
      · simp [dictErase, dictGet, hk, hkv, h, ih]
      · simp [dictErase, dictGet, hk, hkv, ih]

theorem dictGet_dictInsert_self (rows : UserRows) (u : UserKey) (e : Entry) :
    dictGet (dictInsert rows u e) u = some e := by
  induction rows with
  | nil => simp [dictInsert, dictGet]
  | cons p rest ih =>
    obtain ⟨k, w⟩ := p
    by_cases hk : k = u
    · simp [dictInsert, dictGet, hk]
    · simp [dictInsert, dictGet, hk, ih]

theorem dictGet_dictInsert_other (rows : UserRows) (u v : UserKey) (e : Entry)
    (h : v ≠ u) : dictGet (dictInsert rows u e) v = dictGet rows v := by
  induction rows with
  | nil => simp [dictInsert, dictGet, Ne.symm h]
  | cons p rest ih =>
    obtain ⟨k, w⟩ := p
    by_cases hk : k = u
    · simp [dictInsert, dictGet, hk, Ne.symm h]
    · by_cases hkv : k = v
      · simp [dictInsert, dictGet, hk, hkv, h]
      · simp [dictInsert, dictGet, hk, hkv, ih]

theorem dictGet_eq_none_of_not_contains {rows : UserRows} {u : UserKey}
    (h : dictContains rows u = false) : dictGet rows u = none := by
  unfold dictContains at h
  cases hg : dictGet rows u with
  | none => rfl
  | some e => rw [hg] at h; simp at h

/-- A user with no ledger entry is denied whatever the action is: with
`perms = {}` both `perms.get("nav")` and `perms.get("control")` are falsy. -/
theorem allowed_false_of_no_entry (rows : UserRows) (u a : Option String)
    (h : dictGet rows u = none) :
    (handle_presentation rows u a).allowed = false := by
  simp [handle_presentation, h, permsNav, permsControl]

/-- `json.dumps` of a status body is injective in the status for a fixed
user: the serialised strings agree on prefix and the closing quote/brace,
so equal serialisations force equal status fields. -/
theorem jsonDumps_statusMsg_inj (u s1 s2 : String)
    (h : jsonDumps (.statusMsg u s1) = jsonDumps (.statusMsg u s2)) :
    s1 = s2 := by
  unfold jsonDumps at h
  have hd := congrArg String.data h
  simp only [String.data_append] at hd
  have h1 := List.append_cancel_right hd
  have h2 := List.append_cancel_left h1
  exact String.ext h2

/-! ### Claim theorems -/

/-- C1: For every permission ledger and every inbound action message
(user, action): a user with no ledger entry is denied; `next`/`previous`
are allowed iff the user's `nav` flag is true; `start`/`end`/`blackout`
are allowed iff the user's `control` flag is true; on allow exactly one
action-specific `keyboard.send` fires, on deny none fires; and the
decision depends only on the user's ledger entry and the action (a pure
function of ledger and message). -/
theorem C1_command_router_decision (rows : UserRows) (u a : Option String) :
    (dictGet rows u = none → (handle_presentation rows u a).allowed = false)
    ∧ ((a = some "next" ∨ a = some "previous") →
        ((handle_presentation rows u a).allowed = true ↔
          permsNav (dictGet rows u) = true))
    ∧ ((a = some "start" ∨ a = some "end" ∨ a = some "blackout") →
        ((handle_presentation rows u a).allowed = true ↔
          permsControl (dictGet rows u) = true))
    ∧ ((handle_presentation rows u a).allowed = true →
        (handle_presentation rows u a).key_sends = [action_keys a])
    ∧ ((handle_presentation rows u a).allowed = false →
        (handle_presentation rows u a).key_sends = [])
    ∧ (∀ rows2, dictGet rows2 u = dictGet rows u →
        handle_presentation rows2 u a = handle_presentation rows u a) := by
  refine ⟨?_, ?_, ?_, ?_, ?_, ?_⟩
  · intro h
    simp [handle_presentation, h, permsNav, permsControl]
  · rintro (ha | ha) <;> subst ha <;>
      cases hnav : permsNav (dictGet rows u) <;>
        simp [handle_presentation, hnav]
  · rintro (ha | ha | ha) <;> subst ha <;>
      cases hctl : permsControl (dictGet rows u) <;>
        simp [handle_presentation, hctl]
  · intro h
    by_cases h1 : (a = some "next" ∨ a = some "previous")
        ∧ permsNav (dictGet rows u) = true
    · rcases h1.1 with ha | ha <;> subst ha <;>
        simp [handle_presentation, h1.2, action_keys]
    · by_cases h2 : (a = some "start" ∨ a = some "end" ∨ a = some "blackout")
          ∧ permsControl (dictGet rows u) = true
      · rcases h2.1 with ha | ha | ha <;> subst ha <;>
          simp [handle_presentation, h2.2, action_keys]
      · exact absurd h (by simp [handle_presentation, h1, h2])
  · intro h
    by_cases h1 : (a = some "next" ∨ a = some "previous")
        ∧ permsNav (dictGet rows u) = true
    · exact absurd h (by simp [handle_presentation, h1])
    · by_cases h2 : (a = some "start" ∨ a = some "end" ∨ a = some "blackout")
          ∧ permsControl (dictGet rows u) = true
      · exact absurd h (by simp [handle_presentation, h1, h2])
      · simp [handle_presentation, h1, h2]
  · intro rows2 h
    unfold handle_presentation
    rw [h]

/-- C1 witness: with ledger `[alice ↦ nav=true, control=false]`, the
action `next` from alice is allowed and fires exactly the `right` key,
`start` from alice is denied, and `next` from bob (no entry) is denied. -/
theorem C1_command_router_decision_witness :
    ((handle_presentation [(some "alice", ⟨true, false⟩)] (some "alice")
        (some "next")).allowed = true
      ↔ permsNav (dictGet [(some "alice", ⟨true, false⟩)] (some "alice")) = true)
    ∧ ((handle_presentation [(some "alice", ⟨true, false⟩)] (some "alice")
        (some "start")).allowed = true
      ↔ permsControl (dictGet [(some "alice", ⟨true, false⟩)] (some "alice")) = true) :=
  ⟨(C1_command_router_decision [(some "alice", ⟨true, false⟩)] (some "alice")
      (some "next")).2.1 (Or.inl rfl),
   (C1_command_router_decision [(some "alice", ⟨true, false⟩)] (some "alice")
      (some "start")).2.2.1 (Or.inl rfl)⟩

/-- C10: an inbound action message whose action is not one of `start`,
`end`, `next`, `previous`, `blackout` (including a missing action field)
is denied: the router logs a denial and fires no `keyboard.send`,
whatever the user's permissions are. -/
theorem C10_unknown_action_denied (rows : UserRows) (u a : Option String)
    (h : a ∉ ([some "start", some "end", some "next", some "previous",
        some "blackout"] : List (Option String))) :
    (handle_presentation rows u a).allowed = false
    ∧ (handle_presentation rows u a).key_sends = []
    ∧ (handle_presentation rows u a).log = .denied u a := by
  simp only [List.mem_cons, List.mem_singleton, not_or, List.not_mem_nil,
    or_false] at h
  obtain ⟨h1, h2, h3, h4, h5⟩ := h
  simp [handle_presentation, h1, h2, h3, h4, h5]

/-- C10 witness: a message with no action field at all, from a user that
has every permission, is still denied with no key injection. -/
theorem C10_unknown_action_denied_witness :
    (handle_presentation [(some "alice", ⟨true, true⟩)] (some "alice")
        none).allowed = false
    ∧ (handle_presentation [(some "alice", ⟨true, true⟩)] (some "alice")
        none).key_sends = []
    ∧ (handle_presentation [(some "alice", ⟨true, true⟩)] (some "alice")
        none).log = .denied (some "alice") none :=
  C10_unknown_action_denied [(some "alice", ⟨true, true⟩)] (some "alice") none
    (by decide)

/-- C2 counterexample: in the nested listener variant, observing presence
`connection_lost` for alice leaves her ledger entry in place, and a
subsequent `next` from alice is still allowed — contradicting the claim
that `offline` or `connection_lost` removes the entry so that subsequent
actions are denied. -/
theorem C2_presence_removal_counterexample :
    handle_status_nested [(some "alice", ⟨true, false⟩)] (some "alice")
        (some "connection_lost")
      = [(some "alice", ⟨true, false⟩)]
    ∧ (handle_presentation
        (handle_status_nested [(some "alice", ⟨true, false⟩)] (some "alice")
          (some "connection_lost"))
        (some "alice") (some "next")).allowed = true :=
  ⟨rfl, rfl⟩

/-- C2 (amended): in the top-level listener variant, presence `offline` or
`connection_lost` for u removes u's permission entry and every subsequent
action from u is denied; in the nested packaged variant only `offline`
does so — `connection_lost` leaves the ledger completely unchanged. -/
theorem C2_presence_removal (rows : UserRows) (u : Option String) :
    dictGet (handle_status_toplevel rows u (some "offline")) u = none
    ∧ dictGet (handle_status_toplevel rows u (some "connection_lost")) u = none
    ∧ (∀ a, (handle_presentation
        (handle_status_toplevel rows u (some "offline")) u a).allowed = false)
    ∧ (∀ a, (handle_presentation
        (handle_status_toplevel rows u (some "connection_lost")) u a).allowed = false)
    ∧ dictGet (handle_status_nested rows u (some "offline")) u = none
    ∧ (∀ a, (handle_presentation
        (handle_status_nested rows u (some "offline")) u a).allowed = false)
    ∧ handle_status_nested rows u (some "connection_lost") = rows := by
  have hoff_top : dictGet (handle_status_toplevel rows u (some "offline")) u = none := by
    unfold handle_status_toplevel
    by_cases hc : dictContains rows u = true
    · simp [hc, dictGet_dictErase_self]
    · simp [hc, dictGet_eq_none_of_not_contains (Bool.not_eq_true _ ▸ hc)]
  have hcl_top : dictGet (handle_status_toplevel rows u (some "connection_lost")) u = none := by
    unfold handle_status_toplevel
    by_cases hc : dictContains rows u = true
    · simp [hc, dictGet_dictErase_self]
    · simp [hc, dictGet_eq_none_of_not_contains (Bool.not_eq_true _ ▸ hc)]
  have hoff_nested : dictGet (handle_status_nested rows u (some "offline")) u = none := by
    unfold handle_status_nested
    by_cases hc : dictContains rows u = true
    · simp [hc, dictGet_dictErase_self]
    · simp [hc, dictGet_eq_none_of_not_contains (Bool.not_eq_true _ ▸ hc)]
  refine ⟨hoff_top, hcl_top,
    fun a => allowed_false_of_no_entry _ _ _ hoff_top,
    fun a => allowed_false_of_no_entry _ _ _ hcl_top,
    hoff_nested,
    fun a => allowed_false_of_no_entry _ _ _ hoff_nested,
    ?_⟩
  unfold handle_status_nested
  simp

/-- C3 counterexample: in the nested listener variant, a duplicate
presence `online` for alice — whose entry the operator had toggled to
`nav=false, control=true` — resets her entry to the defaults
`nav=true, control=false`, so the observation is not a no-op. -/
theorem C3_duplicate_online_counterexample :
    handle_status_nested [(some "alice", ⟨false, true⟩)] (some "alice")
        (some "online")
      = [(some "alice", ⟨true, false⟩)]
    ∧ handle_status_nested [(some "alice", ⟨false, true⟩)] (some "alice")
        (some "online")
      ≠ [(some "alice", ⟨false, true⟩)] :=
  ⟨rfl, by decide⟩

/-- C3 (amended): in the nested listener variant cited by the claim, a
duplicate presence `online` for a user u already present resets u's entry
to the defaults `nav=true, control=false` (overwriting any toggles the
operator had set), and no other user's entry changes. -/
theorem C3_duplicate_online_resets (rows : UserRows) (u v : UserKey)
    (hu : dictContains rows u = true) (hv : v ≠ u) :
    dictGet (handle_status_nested rows u (some "online")) u = some ⟨true, false⟩
    ∧ dictGet (handle_status_nested rows u (some "online")) v = dictGet rows v := by
  constructor
  · unfold handle_status_nested update_user_nested
    simp [dictGet_dictInsert_self]
  · unfold handle_status_nested update_user_nested
    simp [dictGet_dictInsert_other rows u v _ hv]

/-- C3 witness: alice (present, toggled to `nav=false, control=true`) is
reset by a duplicate `online`, while bob's entry is untouched. -/
theorem C3_duplicate_online_resets_witness :
    dictGet (handle_status_nested
        [(some "alice", ⟨false, true⟩), (some "bob", ⟨true, true⟩)]
        (some "alice") (some "online")) (some "alice") = some ⟨true, false⟩
    ∧ dictGet (handle_status_nested
        [(some "alice", ⟨false, true⟩), (some "bob", ⟨true, true⟩)]
        (some "alice") (some "online")) (some "bob")
      = dictGet [(some "alice", ⟨false, true⟩), (some "bob", ⟨true, true⟩)]
          (some "bob") :=
  C3_duplicate_online_resets
    [(some "alice", ⟨false, true⟩), (some "bob", ⟨true, true⟩)]
    (some "alice") (some "bob") (by decide) (by decide)

/-- C4 counterexample: the legacy client
(`presentation_clicker_client/presentation_clicker_client/mqtt_client.py`)
registers a will whose payload decrypts to the `offline` status body, not
the `connection_lost` one — so the registered will's status field is not
"connection_lost" for that cited connect. -/
theorem C4_last_will_counterexample :
    (get_fernet "hunter2").decrypt
        (legacy_client_connect_will "alice" "ABC123" "hunter2").body
      = some (jsonDumps (.statusMsg "alice" "offline"))
    ∧ jsonDumps (.statusMsg "alice" "offline")
      ≠ jsonDumps (.statusMsg "alice" "connection_lost") :=
  ⟨rfl, by decide⟩

/-- C4 (amended): the current client's `connect` registers, before
initiating the broker connection, a last-will on `<base>/status`,
retained, QoS 1, whose payload is the session-key encryption of
`(user, status "connection_lost")`; the legacy client package instead
registers the encryption of `(user, status "offline")` on the same topic
with the same QoS and retain flag. -/
theorem C4_last_will_registration (user room pwd : String) :
    (client_connect_will user room pwd).topic = get_base_topic room ++ "/status"
    ∧ (client_connect_will user room pwd).qos = 1
    ∧ (client_connect_will user room pwd).retain = true
    ∧ (client_connect_will user room pwd).body
      = (get_fernet pwd).encrypt (jsonDumps (.statusMsg user "connection_lost"))
    ∧ (legacy_client_connect_will user room pwd).topic
      = get_base_topic room ++ "/status"
    ∧ (legacy_client_connect_will user room pwd).qos = 1
    ∧ (legacy_client_connect_will user room pwd).retain = true
    ∧ (legacy_client_connect_will user room pwd).body
      = (get_fernet pwd).encrypt (jsonDumps (.statusMsg user "offline")) :=
  ⟨rfl, rfl, rfl, rfl, rfl, rfl, rfl, rfl⟩

/-- C5: key derivation is deterministic — the same password always yields
the same Fernet key — and keys are separated: for distinct passwords and
any non-empty message, decrypting under the other password's key fails
rather than returning a plaintext. -/
theorem C5_key_determinism_and_separation (p p1 p2 m : String)
    (hne : p1 ≠ p2) (hm : m ≠ "") :
    get_fernet p = get_fernet p
    ∧ (get_fernet p2).decrypt ((get_fernet p1).encrypt m) = none := by
  refine ⟨rfl, ?_⟩
  simp [get_fernet, Fernet.encrypt, Fernet.decrypt, hne]

/-- C5 witness: concrete distinct passwords and a non-empty message. -/
theorem C5_key_determinism_and_separation_witness :
    get_fernet "hunter2" = get_fernet "hunter2"
    ∧ (get_fernet "hunter3").decrypt ((get_fernet "hunter2").encrypt "x") = none :=
  C5_key_determinism_and_separation "hunter2" "hunter2" "hunter3" "x"
    (by decide) (by decide)

/-- C6: round-trip — decryption under the same key recovers exactly the
encrypted plaintext, and a payload serialised and encrypted by
`publish_encrypted` is handed upward by the inbound `_on_message` path as
exactly its serialisation, in exactly one callback invocation. -/
theorem C6_encrypt_decrypt_roundtrip (f : Fernet) (topic : String)
    (payload : Payload) (qos : Nat) (retain : Bool) (m : String) :
    f.decrypt (f.encrypt m) = some m
    ∧ on_message_calls f topic (publish_encrypted f topic payload qos retain).body
      = [(topic, jsonDumps payload)] := by
  constructor
  · simp [Fernet.encrypt, Fernet.decrypt]
  · simp [on_message_calls, publish_encrypted, Fernet.encrypt, Fernet.decrypt]

/-- C7: a clean caller-initiated disconnect never starts the reconnect
loop: `disconnect` clears the should-reconnect flag (before the transport
teardown delivers any disconnect callback), after it no disconnect
callback starts a reconnect thread and the reconnect loop's guard is
false, and a reconnect thread is only ever started when the flag was true
and the disconnect was non-clean (`rc != 0`). -/
theorem C7_clean_disconnect_no_reconnect (s : MqttState) (rc : Nat) :
    (base_disconnect s).should_reconnect = false
    ∧ (on_disconnect (base_disconnect s) rc).started_reconnect_thread = false
    ∧ reconnect_loop_guard (base_disconnect s) = false
    ∧ ((on_disconnect s rc).started_reconnect_thread = true →
        s.should_reconnect = true ∧ rc ≠ 0) := by
  refine ⟨rfl, ?_, rfl, ?_⟩
  · simp [on_disconnect, base_disconnect]
  · intro h
    simp only [on_disconnect, Bool.and_eq_true, bne_iff_ne, ne_eq] at h
    exact ⟨h.1.1, h.1.2⟩

/-- C7 witness: from a connected state with the flag set, a non-clean
disconnect (`rc = 1`) that does start the thread indeed had the flag true
and `rc ≠ 0`; and after a caller-initiated disconnect from that same
state, no thread starts. -/
theorem C7_clean_disconnect_no_reconnect_witness :
    (⟨true, true, false⟩ : MqttState).should_reconnect = true ∧ (1 : Nat) ≠ 0 :=
  (C7_clean_disconnect_no_reconnect ⟨true, true, false⟩ 1).2.2.2 (by decide)

/-- C8: when an inbound payload fails to decrypt, `_on_message` still
hands exactly one callback invocation upward, carrying the topic and the
diagnostic placeholder instead of a plaintext; and for every inbound
message (failing or not) exactly one invocation happens, so the handler
never lets the error escape. -/
theorem C8_decrypt_failure_dispatch (f : Fernet) (topic : String) (t : Token)
    (h : f.decrypt t = none) :
    on_message_calls f topic t = [(topic, decryptionDiagnostic)]
    ∧ (∀ t2, (on_message_calls f topic t2).length = 1) := by
  constructor
  · simp [on_message_calls, h]
  · intro t2
    unfold on_message_calls
    cases f.decrypt t2 <;> rfl

/-- C8 witness: a token produced under a different password fails to
decrypt and is forwarded as the diagnostic placeholder on its topic. -/
theorem C8_decrypt_failure_dispatch_witness :
    on_message_calls (get_fernet "a") "presentationclicker/R/status"
        ((get_fernet "b").encrypt "m")
      = [("presentationclicker/R/status", decryptionDiagnostic)] :=
  (C8_decrypt_failure_dispatch (get_fernet "a") "presentationclicker/R/status"
      ((get_fernet "b").encrypt "m") (by decide)).1

/-- C9: the current client's `disconnect`, when connected, publishes
exactly one retained status message on `<base>/status` whose body is the
encryption of the `offline` status (which is a different payload from the
`connection_lost` one) and sleeps the 500 ms grace interval before the
clean teardown; when not connected it publishes nothing. -/
theorem C9_client_disconnect_offline (f : Fernet) (base user : String)
    (s : MqttState) :
    (s.connected = true →
      client_disconnect f base user s =
        { published := [publish_status f base user "offline"]
          sleep_ms := 500
          final_state := base_disconnect s })
    ∧ (s.connected = false → (client_disconnect f base user s).published = [])
    ∧ (publish_status f base user "offline").topic = base ++ "/status"
    ∧ (publish_status f base user "offline").retain = true
    ∧ (publish_status f base user "offline").qos = 1
    ∧ (publish_status f base user "offline").body
      = f.encrypt (jsonDumps (.statusMsg user "offline"))
    ∧ (publish_status f base user "offline").body
      ≠ f.encrypt (jsonDumps (.statusMsg user "connection_lost")) := by
  refine ⟨?_, ?_, rfl, rfl, rfl, rfl, ?_⟩
  · intro h
    simp [client_disconnect, h]
  · intro h
    simp [client_disconnect, h]
  · intro h
    have hplain := congrArg Token.plain h
    simp only [publish_status, publish_encrypted, Fernet.encrypt] at hplain
    exact absurd (jsonDumps_statusMsg_inj user _ _ hplain) (by decide)

/-- C9 witness: from a connected state, the disconnect trace is exactly
the retained offline publish, the 500 ms sleep and the clean teardown;
from a disconnected state, nothing is published. -/
theorem C9_client_disconnect_offline_witness :
    client_disconnect (get_fernet "pw") "presentationclicker/R" "alice"
        ⟨true, true, false⟩
      = { published := [publish_status (get_fernet "pw") "presentationclicker/R"
            "alice" "offline"]
          sleep_ms := 500
          final_state := base_disconnect ⟨true, true, false⟩ }
    ∧ (client_disconnect (get_fernet "pw") "presentationclicker/R" "alice"
        ⟨true, false, false⟩).published = [] :=
  ⟨(C9_client_disconnect_offline (get_fernet "pw") "presentationclicker/R"
      "alice" ⟨true, true, false⟩).1 rfl,
   (C9_client_disconnect_offline (get_fernet "pw") "presentationclicker/R"
      "alice" ⟨true, false, false⟩).2.1 rfl⟩

end PClicker
